import Mathlib

/-!
Verification of the extraction/convergence engine of the notebooklm-skill
repository, shallowly embedded in Lean 4.

The embedding covers:
* the answer-stability poller of `scripts/ask_question.py` (`ask_notebooklm`,
  lines 191-238);
* the scroll-until-no-growth content loop of `scripts/download_source.py`
  (`download_source`, lines 313-410);
* the content cleaner `clean_source_content` of `scripts/download_source.py`
  (lines 21-143);
* the JavaScript `addSource` candidate filter and the final Python
  name-deduplication of `scripts/list_sources.py` (lines 180-201 and 338-345);
* the icon-based row classification of `scripts/list_sources.py`
  (lines 227-237).

Machine strings are modelled as Lean `String` (all inputs of interest are
ASCII, where Python `str.lower`/JS `toLowerCase` agree with `Char.toLower`,
and Python `str.strip` agrees with trimming `Char.isWhitespace`).
Time-based deadlines are modelled as iteration fuel: the Python loops sleep a
fixed interval per iteration, so a wall-clock deadline corresponds to a fixed
number of loop iterations.
-/

/-! ## String primitives

Kernel-reducible re-implementations of the Python/JS string operations used
by the scripts, defined on `List Char` with `String` wrappers. -/

/-- Substring test on character lists: JS `haystack.includes(pat)`,
Python `pat in haystack`. -/
def listContainsSub (pat : List Char) : List Char → Bool
  | [] => pat.isEmpty
  | c :: rest => pat.isPrefixOf (c :: rest) || listContainsSub pat rest

/-- JS `s.includes(pat)` / Python `pat in s`. -/
def containsSub (s pat : String) : Bool :=
  listContainsSub pat.data s.data

/-- Python `str.strip()`: drop whitespace from both ends. -/
def stripStr (s : String) : String :=
  ⟨((s.data.dropWhile Char.isWhitespace).reverse.dropWhile Char.isWhitespace).reverse⟩

/-- Python `str.lower()` / JS `toLowerCase()` (ASCII). -/
def lowerStr (s : String) : String :=
  ⟨s.data.map Char.toLower⟩

/-- Python `str.split(sep)` for a single-character separator, on lists. -/
def splitOnChar (sep : Char) : List Char → List (List Char)
  | [] => [[]]
  | c :: rest =>
    match splitOnChar sep rest with
    | [] => [[]]
    | h :: t => if c = sep then [] :: h :: t else (c :: h) :: t

/-- Python `raw.split(sep)` for a one-character separator string. -/
def splitLines (sep : Char) (s : String) : List String :=
  (splitOnChar sep s.data).map (fun l => ⟨l⟩)

/-- Replace every (left-to-right, non-overlapping) occurrence of `pat` by
`rep`.  Fuel-based so the recursion is structural (kernel-reducible): each
call consumes at least one input character while the fuel drops by exactly
one, so fuel `l.length` never runs out before the input does. -/
def replaceGo (pat rep : List Char) : Nat → List Char → List Char
  | 0, l => l
  | fuel + 1, l =>
    match l with
    | [] => []
    | c :: rest =>
      if pat ≠ [] ∧ pat.isPrefixOf (c :: rest) then
        rep ++ replaceGo pat rep fuel ((c :: rest).drop pat.length)
      else
        c :: replaceGo pat rep fuel rest

/-- Python `str.replace(pat, rep)` on lists of characters. -/
def replaceAllList (pat rep : List Char) (l : List Char) : List Char :=
  replaceGo pat rep l.length l

/-- Python `str.replace(pat, rep)` on strings. -/
def replaceStr (s pat rep : String) : String :=
  ⟨replaceAllList pat.data rep.data s.data⟩

/-! ## StablePoller — `ask_question.py`, `ask_notebooklm` lines 191-238

The answer loop samples the newest response element once per iteration
(sleeping one second in between, so the 120-second deadline is 120
iterations of fuel).  `produce n = none` models "no response element yet or
empty text" at iteration `n` (the code then neither returns nor resets its
counter); `busy n = true` models a visible `div.thinking-message`, which
skips the iteration entirely.  The required stable count 3 is hard-coded in
the source (`if stable_count >= 3`). -/

/-- The polling loop of `ask_notebooklm`: state is the iteration index `n`,
the repeat counter `sc` (`stable_count`) and the previous sample `last`
(`last_text`, initially `none`). -/
def pollLoop (produce : Nat → Option String) (busy : Nat → Bool) :
    Nat → Nat → Nat → Option String → Option String
  | 0, _, _, _ => none
  | fuel + 1, n, sc, last =>
    if busy n then pollLoop produce busy fuel (n + 1) sc last
    else
      match produce n with
      | none => pollLoop produce busy fuel (n + 1) sc last
      | some t =>
        if some t = last then
          if sc + 1 ≥ 3 then some t
          else pollLoop produce busy fuel (n + 1) (sc + 1) (some t)
        else pollLoop produce busy fuel (n + 1) 0 (some t)

/-- The answer poll of `ask_notebooklm`: start with counter 0 and no baseline;
`none` is the timeout outcome (the Python function returns `None`). -/
def pollAnswer (produce : Nat → Option String) (busy : Nat → Bool)
    (fuel : Nat) : Option String :=
  pollLoop produce busy fuel 0 0 none

/-- The fixed reminder text (`ask_question.py` lines 28-34). -/
def FOLLOW_UP_REMINDER : String :=
  "\n\nEXTREMELY IMPORTANT: Is that ALL you need to know? " ++
  "You can always ask another question! Think about it carefully: " ++
  "before you reply to the user, review their original request and this answer. " ++
  "If anything is still unclear or missing, ask me another comprehensive question " ++
  "that includes all necessary context (since each question opens a new browser session)."

/-- The value `ask_notebooklm` returns once the browser choreography is done:
`None` on timeout, otherwise the stabilized answer with the fixed reminder
appended (`return answer + FOLLOW_UP_REMINDER`). -/
def askAnswer (produce : Nat → Option String) (busy : Nat → Bool)
    (fuel : Nat) : Option String :=
  (pollAnswer produce busy fuel).map (fun a => a ++ FOLLOW_UP_REMINDER)

/-! ### Poller theorems -/

/-- The sample the loop observes at iteration `n`: nothing when the busy
indicator is visible or no non-empty response text is available (neither
touches the loop state), otherwise the response text. -/
def sampleAt (produce : Nat → Option String) (busy : Nat → Bool)
    (n : Nat) : Option String :=
  if busy n then none else produce n

/-- The stream of samples the loop actually observes during `fuel`
iterations starting at iteration `n`: busy and empty iterations contribute
nothing. -/
def obsSamples (produce : Nat → Option String) (busy : Nat → Bool) :
    Nat → Nat → List String
  | _, 0 => []
  | n, fuel + 1 =>
    match sampleAt produce busy n with
    | none => obsSamples produce busy (n + 1) fuel
    | some t => t :: obsSamples produce busy (n + 1) fuel

/-- The polling loop as a function of the observed sample stream alone,
with the same state (repeat counter, previous sample) and the same
hard-coded threshold. -/
def listPoll : List String → Nat → Option String → Option String
  | [], _, _ => none
  | t :: rest, sc, last =>
    if some t = last then
      if sc + 1 ≥ 3 then some t
      else listPoll rest (sc + 1) (some t)
    else listPoll rest 0 (some t)

/-- Whether a stream contains four consecutive equal samples — exactly the
event in which the repeat counter reaches the hard-coded stable count 3
(increment-then-check) from a fresh baseline, i.e. some value is observed
stable for the required consecutive count. -/
def hasQuadRun : List String → Bool
  | a :: b :: c :: d :: rest =>
    (a == b && b == c && c == d) || hasQuadRun (b :: c :: d :: rest)
  | _ => false

/-- Dropping the first sample cannot create a quad run. -/
theorem hasQuadRun_tail (x : String) (l : List String)
    (h : hasQuadRun (x :: l) = false) : hasQuadRun l = false := by
  cases l with
  | nil => rfl
  | cons a l1 =>
    cases l1 with
    | nil => rfl
    | cons b l2 =>
      cases l2 with
      | nil => rfl
      | cons c rest =>
        simp only [hasQuadRun, Bool.or_eq_false_iff] at h
        exact h.2

/-- A quad-run-free stream has quad-run-free suffixes. -/
theorem hasQuadRun_append_right (l1 l2 : List String)
    (h : hasQuadRun (l1 ++ l2) = false) : hasQuadRun l2 = false := by
  induction l1 with
  | nil => exact h
  | cons a l1 ih => exact ih (hasQuadRun_tail a (l1 ++ l2) h)

/-- Loop invariant: in state (counter `sc`, baseline `v`) the value `v` has
just been observed `sc + 1` times in a row, so if even the stream extended
by that virtual history has no four consecutive equal samples, the loop can
never return. -/
theorem listPoll_no_quad_some :
    ∀ (l : List String) (sc : Nat) (v : String), sc ≤ 2 →
      hasQuadRun (List.replicate (sc + 1) v ++ l) = false →
      listPoll l sc (some v) = none := by
  intro l
  induction l with
  | nil => intro sc v _ _; rfl
  | cons x rest ih =>
    intro sc v hsc hq
    unfold listPoll
    by_cases hx : x = v
    · subst hx
      rw [if_pos rfl]
      by_cases h3 : sc + 1 ≥ 3
      · exfalso
        obtain rfl : sc = 2 := by omega
        have he : List.replicate (2 + 1) x ++ x :: rest
            = x :: x :: x :: x :: rest := rfl
        rw [he] at hq
        simp [hasQuadRun] at hq
      · rw [if_neg h3]
        apply ih (sc + 1) x (by omega)
        have he : List.replicate (sc + 1 + 1) x ++ rest
            = List.replicate (sc + 1) x ++ x :: rest := by
          rw [List.replicate_succ', List.append_assoc]
          rfl
        rw [he]
        exact hq
    · rw [if_neg (by simpa using hx)]
      apply ih 0 x (by omega)
      exact hasQuadRun_append_right (List.replicate (sc + 1) v) (x :: rest) hq

/-- From the fresh start state, a quad-run-free stream yields no value. -/
theorem listPoll_no_quad_start (l : List String)
    (hq : hasQuadRun l = false) : listPoll l 0 none = none := by
  cases l with
  | nil => rfl
  | cons x rest =>
    unfold listPoll
    rw [if_neg (by simp)]
    exact listPoll_no_quad_some rest 0 x (by omega) hq

/-- The iteration-indexed loop equals the list poller run on the observed
sample stream: busy and empty iterations leave the state untouched. -/
theorem pollLoop_eq_listPoll (produce : Nat → Option String)
    (busy : Nat → Bool) :
    ∀ fuel n sc last,
      pollLoop produce busy fuel n sc last =
        listPoll (obsSamples produce busy n fuel) sc last := by
  intro fuel
  induction fuel with
  | zero => intro n sc last; rfl
  | succ fuel ih =>
    intro n sc last
    unfold pollLoop obsSamples
    cases hb : busy n with
    | true =>
      have hs : sampleAt produce busy n = none := by simp [sampleAt, hb]
      rw [hs]
      dsimp only
      exact ih (n + 1) sc last
    | false =>
      cases hp : produce n with
      | none =>
        have hs : sampleAt produce busy n = none := by simp [sampleAt, hb, hp]
        rw [hs]
        dsimp only
        exact ih (n + 1) sc last
      | some t =>
        have hs : sampleAt produce busy n = some t := by simp [sampleAt, hb, hp]
        rw [hs]
        dsimp only
        rw [if_neg (by simp)]
        unfold listPoll
        by_cases heq : some t = last
        · rw [if_pos heq, if_pos heq]
          by_cases h3 : sc + 1 ≥ 3
          · rw [if_pos h3, if_pos h3]
          · rw [if_neg h3, if_neg h3]
            exact ih (n + 1) (sc + 1) (some t)
        · rw [if_neg heq, if_neg heq]
          exact ih (n + 1) 0 (some t)

/-- C3: on the sample stream "a","a","a" then "b" forever (the page text
stops changing at "b"), the poller returns "b" — the second stable run — and
not "a" and not the timeout value `none`.  The required stable count of 3 is
the hard-coded `stable_count >= 3` of `ask_question.py` line 218. -/
theorem poll_second_stable_run :
    pollAnswer (fun n => if n < 3 then some "a" else some "b")
      (fun _ => false) 120 = some "b" := by
  decide

/-- C4: for EVERY sample sequence and busy pattern, if the deadline elapses
before any value has been observed stable for the required consecutive
count — i.e. no value occurs four consecutive times (`stable_count`
reaching the hard-coded 3) among the samples observed within the fuel
budget — the poll returns the timeout value `none`, never a
partially-stable value whose counter stopped at 1 or 2; in particular a
`produce` yielding a fresh unique value on every sample always times out. -/
theorem poll_timeout_before_stability (produce : Nat → Option String)
    (busy : Nat → Bool) (fuel : Nat)
    (h : hasQuadRun (obsSamples produce busy 0 fuel) = false) :
    pollAnswer produce busy fuel = none := by
  unfold pollAnswer
  rw [pollLoop_eq_listPoll]
  exact listPoll_no_quad_start _ h

/-- Witness for C4: the partially-stable stream "a","a","b","b" (counters 1
and 1 when the deadline of 4 iterations fires) yields `none`, and so does
the producer returning `n + 1` copies of 'x' at iteration `n` (all samples
distinct) under a deadline of 10 iterations. -/
theorem poll_timeout_before_stability_witness :
    pollAnswer (fun n => if n < 2 then some "a" else some "b")
        (fun _ => false) 4 = none ∧
      pollAnswer (fun n => some ⟨List.replicate (n + 1) 'x'⟩)
        (fun _ => false) 10 = none :=
  ⟨poll_timeout_before_stability _ _ 4 (by decide),
   poll_timeout_before_stability _ _ 10 (by decide)⟩

/-- C9: whatever the sample stream, every non-`None` result of
`ask_notebooklm` is the stabilized answer with `FOLLOW_UP_REMINDER`
appended: the reminder is a mandatory suffix of every successful result. -/
theorem askAnswer_reminder_suffix (produce : Nat → Option String)
    (busy : Nat → Bool) (fuel : Nat) (s : String)
    (h : askAnswer produce busy fuel = some s) :
    ∃ a, s = a ++ FOLLOW_UP_REMINDER := by
  unfold askAnswer at h
  cases hp : pollAnswer produce busy fuel with
  | none => rw [hp] at h; exact Option.noConfusion h
  | some a =>
    rw [hp] at h
    exact ⟨a, (Option.some.inj h).symm⟩

set_option maxRecDepth 40000 in
/-- Witness for C9: a constant producer stabilizes at "ans", and the result
indeed carries the reminder suffix. -/
theorem askAnswer_reminder_suffix_witness :
    askAnswer (fun _ => some "ans") (fun _ => false) 10
        = some ("ans" ++ FOLLOW_UP_REMINDER) ∧
      ∃ a, ("ans" ++ FOLLOW_UP_REMINDER) = a ++ FOLLOW_UP_REMINDER := by
  refine ⟨by decide, ?_⟩
  exact askAnswer_reminder_suffix (fun _ => some "ans") (fun _ => false) 10
    ("ans" ++ FOLLOW_UP_REMINDER) (by decide)

/-! ## Scroll-and-sample content loop — `download_source.py` lines 313-410

One cycle takes a snapshot of the source panel (`page.evaluate` returning
the `innerText` of the panel, or nothing), compares its length to the length
seen in the previous cycle, and either stops or scrolls and re-samples.  `snap c` is the
text observed at cycle `c + 1` (`""` models the JS-falsy "no content"
outcome, which also stops the loop).  The function returns the value of
`scroll_attempts` when the loop exits; `max_scrolls` is 30 in the source. -/

/-- The `while scroll_attempts < max_scrolls` loop of `download_source`,
returning the number of cycles executed.  `lastLength` is the Python
`last_length`, initially 0. -/
def scrollLoop (snap : Nat → String) (lastLength : Nat) : Nat → Nat
  | 0 => 0
  | fuel + 1 =>
    let c := snap 0
    if c.length = 0 then 1
    else if c.length = lastLength then 1
    else 1 + scrollLoop (fun i => snap (i + 1)) c.length fuel

/-- Number of snapshot cycles the content loop of `download_source` performs. -/
def scrollAttempts (snap : Nat → String) (maxScrolls : Nat) : Nat :=
  scrollLoop snap 0 maxScrolls

/-! ### Scroll loop theorems -/

/-- C2 counterexample: a snapshot stream whose content stops growing after
cycle 1 (it is the constant "aaaaa").  The claim predicts termination at
cycle `k + 3 = 4`; the loop actually exits at cycle 2, because the code
breaks on the first cycle whose length matches the previous one — it keeps
no streak counter at all. -/
theorem scroll_no_streak_counterexample :
    scrollAttempts (fun _ => "aaaaa") 30 = 2 ∧ (2 : Nat) ≠ 1 + 3 := by
  constructor
  · decide
  · decide

/-- C2 amended: if snapshots up to cycle `k + 1` are nonempty, their lengths
change from cycle to cycle up to cycle `k`, and the length at cycle `k + 1`
repeats the one at cycle `k` (the content stops growing after cycle `k`),
the loop terminates exactly at cycle `k + 1` — one no-growth observation,
not three — provided `k + 1` does not exceed the cycle cap. -/
theorem scrollLoop_stops_on_first_repeat :
    ∀ (k : Nat) (snap : Nat → String) (lastLength fuel : Nat),
      1 ≤ k → k + 1 ≤ fuel →
      (∀ i, i ≤ k → (snap i).length ≠ 0) →
      (∀ i, i + 1 < k → (snap (i + 1)).length ≠ (snap i).length) →
      (snap k).length = (snap (k - 1)).length →
      lastLength ≠ (snap 0).length →
      scrollLoop snap lastLength fuel = k + 1 := by
  intro k
  induction k with
  | zero => intro _ _ _ hk _ _ _ _ _; omega
  | succ k ih =>
    intro snap lastLength fuel _ hfuel hpos hchange hstop hlast
    obtain ⟨fuel', rfl⟩ : ∃ f, fuel = f + 1 := ⟨fuel - 1, by omega⟩
    show scrollLoop snap lastLength (fuel' + 1) = k + 1 + 1
    unfold scrollLoop
    simp only [hpos 0 (by omega), if_false, Ne.symm hlast, if_false]
    by_cases hk : k = 0
    · subst hk
      obtain ⟨fuel'', rfl⟩ : ∃ f, fuel' = f + 1 := ⟨fuel' - 1, by omega⟩
      unfold scrollLoop
      have h1 : (snap 1).length ≠ 0 := hpos 1 (by omega)
      have h2 : (snap 1).length = (snap 0).length := by simpa using hstop
      simp [h1, h2]
    · have hk1 : 1 ≤ k := Nat.one_le_iff_ne_zero.mpr hk
      rw [ih (fun i => snap (i + 1)) (snap 0).length fuel' hk1 (by omega)
        (fun i hi => hpos (i + 1) (by omega))
        (fun i hi => hchange (i + 1) (by omega))
        (by simpa [Nat.succ_sub_one, Nat.sub_add_cancel hk1] using hstop)
        (Ne.symm (hchange 0 (by omega)))]
      omega

/-- Witness for the amended C2 theorem: snapshots grow 3 → 5 chars and then
hold at 5, i.e. growth stops after cycle `k = 2`; the loop exits at cycle 3. -/
theorem scrollLoop_stops_on_first_repeat_witness :
    scrollAttempts (fun i => if i = 0 then "aaa" else "bbbbb") 30 = 2 + 1 := by
  apply scrollLoop_stops_on_first_repeat 2
      (fun i => if i = 0 then "aaa" else "bbbbb") 0 30
  · decide
  · decide
  · intro i _
    cases i with
    | zero => decide
    | succ n =>
      simp only [Nat.succ_ne_zero, if_false]
      decide
  · intro i hi
    obtain rfl : i = 0 := by omega
    decide
  · decide
  · decide

/-! ## BoundaryExtractor — `download_source.py`, `clean_source_content`
(lines 21-143)

A faithful translation of the Python function: split on newlines, locate a
start index and an end index, then filter and decode the slice in between. -/

/-- The start-of-content marker lines (`download_source.py` line 51). -/
def startMarkers : List String := ["Source guide", "arrow_drop_down"]

/-- The end-of-content markers (`download_source.py` lines 59-67). -/
def endMarkers : List String :=
  ["tune more_vert", "Search results", "No emoji found", "Recently used",
   "sources The provided sources", "keep Save to note",
   "keyboard_arrow_down docs"]

/-- The exact-substring UI noise lines (`download_source.py` lines 84-97). -/
def uiLineMarkers : List String :=
  ["Project: Open Company - NotebookLM", "Create notebook", "trending_up",
   "Sources Chat Studio", "Source guide", "arrow_drop_down", "arrow_back",
   "button_magic", "Google apps", "Google Account", "elfenliedsp@gmail.com",
   "Loading"]

/-- The icon-only lines dropped by exact match (`download_source.py`
lines 99-102). -/
def iconWords : List String :=
  ["settings", "PRO", "add", "share", "arrow_forward", "keep", "keep_pin",
   "docs", "keyboard_arrow_down", "tune", "more_vert", "&nbsp;"]

/-- Whether one stripped line moves the start index: it is one of the start
markers, or (`elif`) its lowercase form contains the hint. -/
def lineMovesStart (hint stripped : String) : Bool :=
  startMarkers.contains stripped || containsSub (lowerStr stripped) hint

/-- The start-index loop of `clean_source_content` (lines 49-56): scan all
lines; every line that is a start marker, or whose lowercased strip contains
the hint, sets `start_idx` to the line after it. `i` is the index of the
first list element, `acc` the current `start_idx`. -/
def findStartGo (hint : String) : List String → Nat → Nat → Nat
  | [], _, acc => acc
  | line :: rest, i, acc =>
    if lineMovesStart hint (stripStr line) then findStartGo hint rest (i + 1) (i + 1)
    else findStartGo hint rest (i + 1) acc

/-- Value of `start_idx` computed by `clean_source_content`. -/
def findStartIdx (hint : String) (lines : List String) : Nat :=
  findStartGo hint lines 0 0

/-- The end-index loop (lines 69-78): the first index strictly after
`start_idx` whose stripped line contains one of the end markers, defaulting
to the total number of lines. -/
def findEndGo (total startIdx : Nat) : List String → Nat → Nat
  | [], _ => total
  | line :: rest, i =>
    if i ≤ startIdx then findEndGo total startIdx rest (i + 1)
    else if endMarkers.any (fun m => containsSub (stripStr line) m) then i
    else findEndGo total startIdx rest (i + 1)

/-- Value of `end_idx` computed by `clean_source_content`. -/
def findEndIdx (lines : List String) (startIdx : Nat) : Nat :=
  findEndGo lines.length startIdx lines 0

/-- HTML entity decoding (lines 132-135). -/
def decodeEntities (s : String) : String :=
  replaceStr (replaceStr (replaceStr (replaceStr s "&nbsp;" " ")
    "&amp;" "&") "&lt;" "<") "&gt;" ">"

/-- Whether the first character of a string is a digit
(Python `stripped[0].isdigit()`, reached only on non-empty strings). -/
def firstCharIsDigit (s : String) : Bool :=
  match s.data with
  | [] => false
  | c :: _ => c.isDigit

/-- One iteration of the line-cleaning loop (lines 104-137), appending to
the accumulated `cleaned_lines`. -/
def cleanStep (acc : List String) (line : String) : List String :=
  let stripped := stripStr line
  if stripped = "" then
    match acc.getLast? with
    | some prev => if prev = "" then acc else acc ++ [""]
    | none => acc
  else if uiLineMarkers.any (fun m => containsSub stripped m) then acc
  else if iconWords.contains stripped then acc
  else if stripped.length < 3 && !firstCharIsDigit stripped then acc
  else acc ++ [decodeEntities stripped]

/-- Model of `clean_source_content` applied to the raw content and the
source name (lines 21-143). -/
def clean_source_content (rawContent sourceName : String) : String :=
  let lines := splitLines '\n' rawContent
  let hint := replaceStr sourceName ".md" ""
  let startIdx := findStartIdx hint lines
  let endIdx := findEndIdx lines startIdx
  let contentLines := (lines.drop startIdx).take (endIdx - startIdx)
  let cleaned := contentLines.foldl cleanStep []
  let cleaned := (cleaned.reverse.dropWhile (fun l => l = "")).reverse
  String.intercalate "\n" cleaned

/-! ### Boundary extraction theorems -/

/-- C5 counterexample input: the text has a start marker ("Source guide") at
index 0 and a hint-containing line at index 2.  The claim says the hint is
consulted only when no start marker occurs at all, so the start line should
be 1 (after the last marker); the `elif` in the code runs on every line, so the
last marker-or-hint occurrence wins and the start line is 3. -/
theorem findStartIdx_counterexample :
    findStartIdx "hint" ["Source guide", "x", "the hint line", "y"] = 3 ∧
      (3 : Nat) ≠ 0 + 1 := by
  constructor
  · decide
  · decide

/-- Relative index of the last line that moves the start index (is a start
marker or contains the hint), if any. -/
def lastMatchAux (hint : String) : List String → Option Nat
  | [] => none
  | line :: rest =>
    match lastMatchAux hint rest with
    | some k => some (k + 1)
    | none => if lineMovesStart hint (stripStr line) then some 0 else none

/-- The start index as the amended wording describes it: one past the
last occurrence of any line that is a start marker or contains the hint,
or 0 when no line matches. -/
def specStartIdx (hint : String) (lines : List String) : Nat :=
  match lastMatchAux hint lines with
  | some k => k + 1
  | none => 0

/-- The accumulator loop agrees with the last-match characterization. -/
theorem findStartGo_eq_lastMatch (hint : String) :
    ∀ (l : List String) (i acc : Nat),
      findStartGo hint l i acc =
        match lastMatchAux hint l with
        | some k => i + k + 1
        | none => acc := by
  intro l
  induction l with
  | nil => intro i acc; rfl
  | cons line rest ih =>
    intro i acc
    unfold findStartGo lastMatchAux
    by_cases hm : lineMovesStart hint (stripStr line)
    · simp only [hm, if_true]
      rw [ih (i + 1) (i + 1)]
      cases lastMatchAux hint rest with
      | none => simp
      | some k => simp; omega
    · simp only [hm, if_false]
      rw [ih (i + 1) acc]
      cases lastMatchAux hint rest with
      | none => simp [hm]
      | some k => simp; omega

/-- C5 amended: `clean_source_content` sets the content start line to one
past the LAST occurrence of any line that is a start marker OR whose
lowercased strip contains the hint — markers and hint matches are treated
uniformly by the scan (the hint is not a fallback reserved for
marker-free texts) — and to 0 when no line matches at all. -/
theorem findStartIdx_last_marker_or_hint (hint : String) (lines : List String) :
    findStartIdx hint lines = specStartIdx hint lines := by
  unfold findStartIdx specStartIdx
  rw [findStartGo_eq_lastMatch hint lines 0 0]
  cases lastMatchAux hint lines with
  | none => rfl
  | some k => simp

/-- C6: on the six-line sample, extraction keeps exactly the two payload
lines — the slice after the last "Source guide" marker up to the
"tune more_vert" end marker, with the chrome lines outside it discarded. -/
theorem clean_source_content_boundary_sample :
    clean_source_content
        "chrome1\nSource guide\nREAL LINE 1\nREAL LINE 2\ntune more_vert\nchrome2"
        "zzzz" = "REAL LINE 1\nREAL LINE 2" := by
  decide

/-- Whether a string is purely numeric (every character a digit). -/
def isPurelyNumeric (s : String) : Bool :=
  !s.data.isEmpty && s.data.all Char.isDigit

/-- C7 counterexample: the two-character line "1a" is not purely numeric, so
the claim says the short-line filter drops it; the code only inspects the
FIRST character (`stripped[0].isdigit()`), so "1a" is retained. -/
theorem cleanStep_short_line_counterexample :
    cleanStep [] "1a" = ["1a"] ∧ isPurelyNumeric "1a" = false := by
  constructor
  · decide
  · decide

/-- C7 amended: a non-empty line of the content slice that survives the
UI-marker and icon-word filters and whose stripped length is below 3 is
dropped if and only if its FIRST character is not a digit (Python
`stripped[0].isdigit()`); whole-line numericness is never tested. -/
theorem cleanStep_short_line_first_digit (acc : List String) (line : String)
    (hne : stripStr line ≠ "")
    (hui : uiLineMarkers.any (fun m => containsSub (stripStr line) m) = false)
    (hicon : iconWords.contains (stripStr line) = false)
    (hshort : (stripStr line).length < 3) :
    cleanStep acc line = acc ↔ firstCharIsDigit (stripStr line) = false := by
  have hstep : cleanStep acc line =
      if firstCharIsDigit (stripStr line) then
        acc ++ [decodeEntities (stripStr line)]
      else acc := by
    have hicon' : stripStr line ∉ iconWords := by simpa using hicon
    cases hd : firstCharIsDigit (stripStr line) <;>
      simp [cleanStep, hne, hui, hicon', hshort, hd]
  rw [hstep]
  cases hd : firstCharIsDigit (stripStr line) with
  | false => simp
  | true =>
    simp only [if_true, Bool.true_eq_false, iff_false]
    intro h
    have := congrArg List.length h
    simp at this

/-- Witness for the amended C7 theorem: the short non-digit-initial line
"ab" is dropped. -/
theorem cleanStep_short_line_first_digit_witness :
    cleanStep [] "ab" = [] :=
  (cleanStep_short_line_first_digit [] "ab" (by decide) (by decide)
    (by decide) (by decide)).mpr (by decide)

/-! ## Source listing — `list_sources.py`

`addSource` (lines 180-201) is the candidate filter of the JavaScript
extraction path; `dedupByName` (lines 338-345) is the final Python
deduplication applied to whatever path produced the `sources` list; the
row classifier (lines 227-237) assigns the type from the row HTML. -/

/-- One observed source record, a dict with keys name and type (the `type`
key may be absent in the element-extraction path). -/
structure SourceRec where
  name : String
  type : Option String
deriving DecidableEq, Repr

/-- The JS `skipPatterns` list (`list_sources.py` lines 184-188). -/
def skipPatterns : List String :=
  ["select all", "add source", "search", "web", "fast research",
   "markdown", "ideo_", "youtube", "video_", "icon", "button",
   "checkbox", "mat-", "ng-", "class=", "style=", "aria-"]

/-- A JS regex `\w` word character. -/
def isWordChar (c : Char) : Bool :=
  ('a' ≤ c && c ≤ 'z') || ('A' ≤ c && c ≤ 'Z') || ('0' ≤ c && c ≤ '9') || c = '_'

/-- The JS regex test on the name (a dot, then 2 to 4 word characters,
then end of string): the name ends in a short filename extension. -/
def hasExtension (name : String) : Bool :=
  [2, 3, 4].any (fun k =>
    (name.data.reverse.take k).all isWordChar &&
    name.data.reverse.get? k == some '.')

/-- JS `type || 'Document'` (empty string is falsy). -/
def jsTypeOr (t : Option String) : String :=
  match t with
  | none => "Document"
  | some s => if s = "" then "Document" else s

/-- The JS extraction state: the `seenNames` set and the `sources` array. -/
structure JsState where
  seenNames : List String
  sources : List SourceRec
deriving DecidableEq, Repr

/-- The JS `addSource` helper (`list_sources.py` lines 180-201): reject
names shorter than 5 characters, names hitting a skip pattern (equality, or
containment for names under 15 characters), and names with neither a space
nor a filename extension; then dedup on the lowercased name, first seen
wins. -/
def addSource (st : JsState) (name : String) (t : Option String) : JsState :=
  if name.length < 5 then st
  else
    let lowerName := lowerStr name
    if skipPatterns.any (fun p =>
        lowerName == p || (decide (lowerName.length < 15) && containsSub lowerName p)) then st
    else
      let hasSpace := name.data.contains ' '
      let isFilename := hasExtension name
      if !hasSpace && !isFilename then st
      else if st.seenNames.contains lowerName then st
      else ⟨lowerName :: st.seenNames, st.sources ++ [⟨name, some (jsTypeOr t)⟩]⟩

/-- The JS extraction path: fold `addSource` over the observed
(name, type) pairs and return the accumulated `sources` array. -/
def jsCollect (obs : List (String × Option String)) : List SourceRec :=
  (obs.foldl (fun st o => addSource st o.1 o.2) ⟨[], []⟩).sources

/-- The final Python deduplication loop (`list_sources.py` lines 338-345):
keep a record when its (exact, case-sensitive) name is non-empty and not
seen before. -/
def dedupGo : List SourceRec → List String → List SourceRec
  | [], _ => []
  | s :: rest, seen =>
    if s.name ≠ "" ∧ s.name ∉ seen then s :: dedupGo rest (s.name :: seen)
    else dedupGo rest seen

/-- The `unique_sources` list computed by `list_sources`. -/
def dedupByName (sources : List SourceRec) : List SourceRec :=
  dedupGo sources []

/-- The row-type heuristic of `list_sources.py` lines 227-237: the type is
'Document' unless the row's surrounding HTML signals YouTube (innerHTML
contains 'youtube'/'YouTube', or a youtube `img`, or a red-styled element —
the two querySelector probes are the boolean parameters). -/
def classifyRow (innerHTML : String) (hasYtImg hasRedStyle : Bool) : String :=
  if containsSub innerHTML "youtube" || containsSub innerHTML "YouTube"
      || hasYtImg || hasRedStyle then "YouTube"
  else "Document"

/-! ### Source listing theorems -/

/-- Every record kept by the Python dedup loop has a non-empty name not yet
seen, and is the FIRST input record bearing its exact name. -/
theorem dedupGo_mem : ∀ (l : List SourceRec) (seen : List String)
    (r : SourceRec), r ∈ dedupGo l seen →
      r.name ≠ "" ∧ r.name ∉ seen ∧
        l.find? (fun s => s.name == r.name) = some r := by
  intro l
  induction l with
  | nil => intro seen r hr; exact absurd hr (by simp [dedupGo])
  | cons s rest ih =>
    intro seen r hr
    unfold dedupGo at hr
    by_cases hs : s.name ≠ "" ∧ s.name ∉ seen
    · rw [if_pos hs] at hr
      rcases List.mem_cons.mp hr with rfl | hr'
      · exact ⟨hs.1, hs.2, by rw [List.find?_cons_of_pos _ (by simp)]⟩
      · obtain ⟨h1, h2, h3⟩ := ih (s.name :: seen) r hr'
        have hne : s.name ≠ r.name := by
          intro he; exact h2 (he ▸ List.mem_cons_self s.name seen)
        refine ⟨h1, fun hm => h2 (List.mem_cons_of_mem _ hm), ?_⟩
        rw [List.find?_cons_of_neg _ (by simp [hne])]
        exact h3
    · rw [if_neg hs] at hr
      obtain ⟨h1, h2, h3⟩ := ih seen r hr
      have hne : s.name ≠ r.name := by
        rcases not_and_or.mp hs with h | h
        · intro he; exact h1 (he ▸ not_not.mp h)
        · intro he; exact h2 (he ▸ not_not.mp h)
      refine ⟨h1, h2, ?_⟩
      rw [List.find?_cons_of_neg _ (by simp [hne])]
      exact h3

/-- The Python dedup output has pairwise distinct exact names. -/
theorem dedupGo_names_nodup : ∀ (l : List SourceRec) (seen : List String),
    ((dedupGo l seen).map SourceRec.name).Nodup := by
  intro l
  induction l with
  | nil => intro seen; simp [dedupGo]
  | cons s rest ih =>
    intro seen
    unfold dedupGo
    by_cases hs : s.name ≠ "" ∧ s.name ∉ seen
    · rw [if_pos hs]
      simp only [List.map_cons, List.nodup_cons]
      refine ⟨?_, ih (s.name :: seen)⟩
      intro hmem
      obtain ⟨r, hr, hname⟩ := List.mem_map.mp hmem
      obtain ⟨_, h2, _⟩ := dedupGo_mem rest (s.name :: seen) r hr
      exact h2 (hname ▸ List.mem_cons_self s.name seen)
    · rw [if_neg hs]; exact ih seen

/-- The Python dedup output is a sublist of its input (records are kept
verbatim, never merged). -/
theorem dedupGo_sublist : ∀ (l : List SourceRec) (seen : List String),
    (dedupGo l seen).Sublist l := by
  intro l
  induction l with
  | nil => intro seen; simp [dedupGo]
  | cons s rest ih =>
    intro seen
    unfold dedupGo
    by_cases hs : s.name ≠ "" ∧ s.name ∉ seen
    · rw [if_pos hs]; exact (ih (s.name :: seen)).cons₂ s
    · rw [if_neg hs]; exact (ih seen).cons s

/-- The JS-path state invariant: lowercased names of accumulated records are
pairwise distinct and all registered in `seenNames`. -/
def jsStateInv (st : JsState) : Prop :=
  (st.sources.map (fun r => lowerStr r.name)).Nodup ∧
    ∀ r ∈ st.sources, lowerStr r.name ∈ st.seenNames

/-- Helper: `addSource` preserves the JS-path invariant. -/
theorem addSource_inv (st : JsState) (name : String) (t : Option String)
    (h : jsStateInv st) : jsStateInv (addSource st name t) := by
  simp only [addSource]
  split_ifs with h1 h2 h3 h4
  · exact h
  · exact h
  · exact h
  · exact h
  · obtain ⟨hnd, hseen⟩ := h
    have hnotin : lowerStr name ∉ st.sources.map (fun r => lowerStr r.name) := by
      intro hmem
      obtain ⟨r, hr, hname⟩ := List.mem_map.mp hmem
      have hm : lowerStr name ∈ st.seenNames := hname ▸ hseen r hr
      exact h4 (by simpa using hm)
    constructor
    · simp only [List.map_append, List.map_cons, List.map_nil]
      rw [List.nodup_append]
      refine ⟨hnd, List.nodup_singleton _, ?_⟩
      intro x hx hx'
      simp only [List.mem_singleton] at hx'
      exact hnotin (hx' ▸ hx)
    · intro r hr
      rcases List.mem_append.mp hr with hr' | hr'
      · exact List.mem_cons_of_mem _ (hseen r hr')
      · simp only [List.mem_singleton] at hr'
        subst hr'
        exact List.mem_cons_self _ _

/-- The invariant holds after folding any observation list. -/
theorem foldl_addSource_inv (obs : List (String × Option String)) :
    ∀ st : JsState, jsStateInv st →
      jsStateInv (obs.foldl (fun st o => addSource st o.1 o.2) st) := by
  induction obs with
  | nil => intro st h; exact h
  | cons o rest ih =>
    intro st h
    exact ih (addSource st o.1 o.2) (addSource_inv st o.1 o.2 h)

/-- C1 counterexample: the final dedup of `list_sources` (lines 338-345)
compares exact names, so the case-variant pair "Doc A"/"doc a" — which one
collection run can produce via the element-extraction path — both survive
into the returned list, violating the claimed at-most-one-record-per-
case-insensitive-name invariant. -/
theorem dedupByName_case_counterexample :
    (dedupByName [⟨"Doc A", none⟩, ⟨"doc a", none⟩]).length = 2 ∧
      lowerStr "Doc A" = lowerStr "doc a" ∧ ("Doc A" : String) ≠ "doc a" := by
  refine ⟨by decide, by decide, by decide⟩

/-- C1 amended: within one collection run the returned list contains at most
one record per EXACT (case-sensitive) name, the kept record being the
first-seen one with its attributes intact (a verbatim sublist, nothing
merged); case-insensitive uniqueness holds only for the output of the
JavaScript extraction path, whose `addSource` dedups on the lowercased
name. -/
theorem list_sources_dedup_amended :
    (∀ l : List SourceRec,
      ((dedupByName l).map SourceRec.name).Nodup ∧
      (dedupByName l).Sublist l ∧
      ∀ r ∈ dedupByName l, l.find? (fun s => s.name == r.name) = some r) ∧
    ∀ obs : List (String × Option String),
      ((jsCollect obs).map (fun r => lowerStr r.name)).Nodup := by
  constructor
  · intro l
    exact ⟨dedupGo_names_nodup l [], dedupGo_sublist l [],
      fun r hr => (dedupGo_mem l [] r hr).2.2⟩
  · intro obs
    exact (foldl_addSource_inv obs ⟨[], []⟩ (by simp [jsStateInv])).1

/-- Witness for the amended C1 theorem: on a run observing the same name
twice with different types, the first-seen record with its original type is
what the dedup returns, and the JS path dedups "My Notes long" against its
case variant. -/
theorem list_sources_dedup_amended_witness :
    ((dedupByName [⟨"A doc", some "Document"⟩, ⟨"A doc", some "YouTube"⟩]).map
        SourceRec.name).Nodup ∧
    ([⟨"A doc", some "Document"⟩, ⟨"A doc", some "YouTube"⟩] :
        List SourceRec).find? (fun s => s.name == "A doc")
      = some ⟨"A doc", some "Document"⟩ ∧
    ((jsCollect [("My Notes long", none), ("my notes LONG", none)]).map
        (fun r => lowerStr r.name)).Nodup := by
  refine ⟨list_sources_dedup_amended.1 _ |>.1, ?_, list_sources_dedup_amended.2 _⟩
  exact list_sources_dedup_amended.1
    [⟨"A doc", some "Document"⟩, ⟨"A doc", some "YouTube"⟩] |>.2.2
    ⟨"A doc", some "Document"⟩ (by decide)

/-- The shape every name surviving the JS filter has: at least 5 characters,
and a space or a 2-to-4-character filename extension. -/
def goodName (name : String) : Prop :=
  5 ≤ name.length ∧
    (name.data.contains ' ' = true ∨ hasExtension name = true)

/-- Helper: `addSource` only ever appends records whose name has the good
shape. -/
theorem addSource_good (st : JsState) (name : String) (t : Option String)
    (h : ∀ r ∈ st.sources, goodName r.name) :
    ∀ r ∈ (addSource st name t).sources, goodName r.name := by
  simp only [addSource]
  split_ifs with h1 h2 h3 h4
  · exact h
  · exact h
  · exact h
  · exact h
  · intro r hr
    rcases List.mem_append.mp hr with hr' | hr'
    · exact h r hr'
    · simp only [List.mem_singleton] at hr'
      subst hr'
      show goodName name
      refine ⟨by omega, ?_⟩
      cases hsp : name.data.contains ' ' with
      | true => exact Or.inl rfl
      | false =>
        cases hext : hasExtension name with
        | true => exact Or.inr rfl
        | false =>
          exact absurd (show (!name.data.contains ' ' && !hasExtension name)
            = true by rw [hsp, hext]; rfl) h3

/-- Good-name shape after folding the whole observation list. -/
theorem foldl_addSource_good (obs : List (String × Option String)) :
    ∀ st : JsState, (∀ r ∈ st.sources, goodName r.name) →
      ∀ r ∈ (obs.foldl (fun st o => addSource st o.1 o.2) st).sources,
        goodName r.name := by
  induction obs with
  | nil => intro st h; exact h
  | cons o rest ih =>
    intro st h
    exact ih (addSource st o.1 o.2) (addSource_good st o.1 o.2 h)

/-- C10: the JS extraction path silently excludes every candidate whose name
is shorter than 5 characters, and every candidate whose name has neither a
space nor a dot-plus-2-to-4-word-character extension (the state is returned
unchanged); consequently every record it returns satisfies both shape
conditions. -/
theorem jsCollect_name_shape :
    (∀ (st : JsState) (name : String) (t : Option String),
      name.length < 5 → addSource st name t = st) ∧
    (∀ (st : JsState) (name : String) (t : Option String),
      name.data.contains ' ' = false → hasExtension name = false →
        addSource st name t = st) ∧
    ∀ (obs : List (String × Option String)) (r : SourceRec),
      r ∈ jsCollect obs → goodName r.name := by
  refine ⟨?_, ?_, ?_⟩
  · intro st name t h
    simp [addSource, h]
  · intro st name t hsp hext
    have hsp' : ' ' ∉ name.data := by simpa using hsp
    simp [addSource, hsp', hext]
  · intro obs r hr
    exact foldl_addSource_good obs ⟨[], []⟩ (by simp) r hr

/-- Witness for C10: the 2-character name and the spaceless extensionless
name are both rejected, and an accepted record has the good shape. -/
theorem jsCollect_name_shape_witness :
    addSource ⟨[], []⟩ "ab" none = ⟨[], []⟩ ∧
    addSource ⟨[], []⟩ "abcdefgh" none = ⟨[], []⟩ ∧
    goodName "My Notes long" := by
  refine ⟨jsCollect_name_shape.1 ⟨[], []⟩ "ab" none (by decide),
    jsCollect_name_shape.2.1 ⟨[], []⟩ "abcdefgh" none (by decide) (by decide),
    ?_⟩
  have hm : (⟨"My Notes long", some "Document"⟩ : SourceRec)
      ∈ jsCollect [("My Notes long", none)] := by decide
  exact jsCollect_name_shape.2.2 [("My Notes long", none)] _ hm

/-- C8 counterexample: the row "My Document.pdf" preceded by the icon label
"drive_pdf" (so the row HTML carries both strings) is classified as
"Document", not "PDF" — the code has no PDF tag and no icon-label-to-tag
mapping; its only icon-based rule is the YouTube check. -/
theorem classifyRow_pdf_counterexample :
    classifyRow "drive_pdf My Document.pdf" false false = "Document" ∧
      ("Document" : String) ≠ "PDF" := by
  refine ⟨by decide, by decide⟩

/-- C8 amended: any row without a YouTube signal — no 'youtube'/'YouTube'
substring in its HTML, no youtube img, no red-styled element — falls through
to the 'Document' default; in particular a PDF row preceded by "drive_pdf"
is tagged Document. -/
theorem classifyRow_default_document (innerHTML : String)
    (h1 : containsSub innerHTML "youtube" = false)
    (h2 : containsSub innerHTML "YouTube" = false) :
    classifyRow innerHTML false false = "Document" := by
  simp [classifyRow, h1, h2]

/-- Witness for the amended C8 theorem at the PDF row of the claim. -/
theorem classifyRow_default_document_witness :
    classifyRow "drive_pdf My Document.pdf" false false = "Document" :=
  classifyRow_default_document "drive_pdf My Document.pdf"
    (by decide) (by decide)
